import Mathlib

/-!
Shallow embedding of the audio-channel-splitter utility
(src/audio_channel_splitter.py) and proofs about its specification.

Conventions of the embedding:
* Python floats are modelled as exact rationals (ℚ); every value the
  program manipulates (timestamps, durations) is produced from decimal
  literals, so the rational model is exact for them.
* Python strings are Lean `String`s; character-level helpers are defined
  over `String.data` so that the kernel can evaluate them.
* Every definition is executable: concrete runs of the embedded
  functions are settled by kernel reduction.
* Qt widget state is modelled as plain structures holding the text /
  flag values the source reads from the widgets.
-/

/-! ## Decimal rendering of naturals (used by `str()` and `"%02d"`) -/

/-- Fuel-based most-significant-first decimal digits of a natural number.
The fuel argument only makes the recursion structural; `natChars` always
supplies enough fuel. -/
def natCharsAux : Nat → Nat → List Char
  | 0, _ => []
  | fuel + 1, n =>
    if n < 10 then [Nat.digitChar n]
    else natCharsAux fuel (n / 10) ++ [Nat.digitChar (n % 10)]

/-- Decimal digit characters of a natural number, e.g. `natChars 35 = ['3','5']`. -/
def natChars (n : Nat) : List Char := natCharsAux (n + 1) n

/-- Decimal string of a natural number. -/
def natStr (n : Nat) : String := ⟨natChars n⟩

/-- Python `"%02d"` on a nonnegative value: zero-pad to width two. -/
def pad2 (n : Nat) : String := if n < 10 then ⟨'0' :: natChars n⟩ else natStr n

/-- Python `"%03d"` on a nonnegative value: zero-pad to width three. -/
def pad3 (n : Nat) : String :=
  if n < 10 then ⟨'0' :: '0' :: natChars n⟩
  else if n < 100 then ⟨'0' :: natChars n⟩
  else natStr n

/-! ## Python string primitives -/

/-- Python `str.strip()` (ASCII whitespace, which is all the repo uses). -/
def pyStrip (s : String) : String :=
  ⟨((s.data.dropWhile Char.isWhitespace).reverse.dropWhile Char.isWhitespace).reverse⟩

/-- Helper for `splitOnChar`; `acc` holds the current piece reversed. -/
def splitOnCharAux (sep : Char) : List Char → List Char → List (List Char)
  | [], acc => [acc.reverse]
  | c :: cs, acc =>
    if c = sep then acc.reverse :: splitOnCharAux sep cs []
    else splitOnCharAux sep cs (c :: acc)

/-- Python `str.split(sep)` for a one-character separator; e.g.
`splitOnChar ':' "a:b".data = [['a'],['b']]` and splitting `":"` gives
two empty pieces, exactly as in Python. -/
def splitOnChar (sep : Char) (cs : List Char) : List (List Char) :=
  splitOnCharAux sep cs []

/-! ## Python `float()` on decimal literals -/

/-- Every character is a decimal digit. -/
def allDigits (cs : List Char) : Bool := cs.all Char.isDigit

/-- Value of a most-significant-first list of decimal digit characters. -/
def digitsNat (cs : List Char) : Nat := cs.foldl (fun a c => a * 10 + (c.toNat - 48)) 0

/-- Mantissa part of a Python float literal: optional sign, then either
digits, or digits-dot-digits with at least one digit overall. -/
def parseMantissa (cs : List Char) : Option ℚ :=
  let sb : ℚ × List Char :=
    match cs with
    | '+' :: t => (1, t)
    | '-' :: t => (-1, t)
    | _ => (1, cs)
  match splitOnChar '.' sb.2 with
  | [ds] =>
    if !ds.isEmpty && allDigits ds then some (sb.1 * (digitsNat ds : ℚ)) else none
  | [ip, fp] =>
    if (!ip.isEmpty || !fp.isEmpty) && allDigits ip && allDigits fp then
      some (sb.1 * ((digitsNat ip : ℚ) + mkRat (digitsNat fp) (10 ^ fp.length)))
    else none
  | _ => none

/-- Exponent part of a Python float literal: optional sign then digits. -/
def parseExponent (cs : List Char) : Option ℤ :=
  let sb : ℤ × List Char :=
    match cs with
    | '+' :: t => (1, t)
    | '-' :: t => (-1, t)
    | _ => (1, cs)
  if !sb.2.isEmpty && allDigits sb.2 then some (sb.1 * (digitsNat sb.2 : ℤ)) else none

/-- Integer power of ten as a rational. -/
def pow10 (k : ℤ) : ℚ :=
  if 0 ≤ k then (10 : ℚ) ^ k.toNat else mkRat 1 (10 ^ (-k).toNat)

/-- Python `float(s)` restricted to finite decimal literals: surrounding
whitespace is stripped, then an optional sign, digits with an optional
fractional part, and an optional decimal exponent are accepted.  The exotic
forms `inf`, `nan`, hex floats and digit-group underscores are outside the
model; the repo never produces them.  `none` models `float` raising
`ValueError`. -/
def pyFloat? (s : String) : Option ℚ :=
  let cs := (pyStrip s).data.map fun c => if c = 'E' then 'e' else c
  match splitOnChar 'e' cs with
  | [m] => parseMantissa m
  | [m, ex] =>
    match parseMantissa m, parseExponent ex with
    | some v, some k => some (v * pow10 k)
    | _, _ => none
  | _ => none

/-! ## `parse_time_input` (src/audio_channel_splitter.py, lines 63-84) -/

/-- Embedding of `parse_time_input`: strip, accept `H:MM:SS`, `MM:SS`
or plain seconds, and fall back to `0.0` when nothing parses.  When a
colon-separated attempt fails the source falls through to `float(text)`
on the whole string, which is what `fallback` models. -/
def parse_time_input (text : String) : ℚ :=
  let t := pyStrip text
  if t = "" then 0
  else
    let fallback := (pyFloat? t).getD 0
    match splitOnChar ':' t.data with
    | [a, b, c] =>
      match pyFloat? ⟨a⟩, pyFloat? ⟨b⟩, pyFloat? ⟨c⟩ with
      | some x, some y, some z => x * (3600 : ℚ) + y * (60 : ℚ) + z
      | _, _, _ => fallback
    | [a, b] =>
      match pyFloat? ⟨a⟩, pyFloat? ⟨b⟩ with
      | some x, some y => x * (60 : ℚ) + y
      | _, _ => fallback
    | _ => fallback

/-- A string on which every parsing avenue of `parse_time_input` fails:
it is non-empty after stripping, its colon pieces do not all parse as
floats, and the whole string does not parse as a float either. -/
def unparseable (text : String) : Bool :=
  let t := pyStrip text
  (t != "") &&
    (match splitOnChar ':' t.data with
     | [a, b, c] =>
       (pyFloat? ⟨a⟩).isNone || (pyFloat? ⟨b⟩).isNone || (pyFloat? ⟨c⟩).isNone
     | [a, b] => (pyFloat? ⟨a⟩).isNone || (pyFloat? ⟨b⟩).isNone
     | _ => true) &&
    (pyFloat? t).isNone

/-! ## `format_duration` (src/audio_channel_splitter.py, lines 53-60) -/

/-- Python float `%` (modulo), which has the sign of the divisor. -/
def pyFloorMod (a b : ℚ) : ℚ := a - b * (⌊a / b⌋ : ℚ)

/-- Round to the nearest integer, ties to even — the rounding Python's
string formatting applies to the (here exact) value. -/
def roundHalfEven (q : ℚ) : ℤ :=
  if q - (⌊q⌋ : ℚ) < mkRat 1 2 then ⌊q⌋
  else if mkRat 1 2 < q - (⌊q⌋ : ℚ) then ⌊q⌋ + 1
  else if ⌊q⌋ % 2 = 0 then ⌊q⌋ else ⌊q⌋ + 1

/-- Python `f"{s:06.3f}"` for a nonnegative seconds value: three
millisecond digits, integer part zero-padded so the whole field has
width at least six. -/
def formatSec063 (s : ℚ) : String :=
  let mn := (roundHalfEven (s * (1000 : ℚ))).toNat
  pad2 (mn / 1000) ++ "." ++ pad3 (mn % 1000)

/-- Embedding of `format_duration`: non-positive input renders as
`00:00:00.000`; otherwise hours, minutes and seconds are laid out as in
the source (`h:02d`, `m:02d`, `s:06.3f`). -/
def format_duration (seconds : ℚ) : String :=
  if seconds ≤ 0 then "00:00:00.000"
  else
    let h := (⌊seconds / (3600 : ℚ)⌋).toNat
    let m := (⌊pyFloorMod seconds (3600 : ℚ) / (60 : ℚ)⌋).toNat
    let s := pyFloorMod seconds (60 : ℚ)
    pad2 h ++ ":" ++ pad2 m ++ ":" ++ formatSec063 s

/-! ## Rendering of parsed time values (Python `str()` on a float) -/

/-- Characters of the rational: optional minus sign, decimal numerator,
and a `/den` part when the denominator is not one.  This stands in for
Python's `str()` of the parsed (exact-decimal) time value; no claim
depends on the exact rendering, only on the fact that it is numeric text
(digits, minus, slash) and therefore never collides with an option flag. -/
def ratChars (q : ℚ) : List Char :=
  (if q < 0 then ['-'] else []) ++ natChars q.num.natAbs ++
    (if q.den = 1 then [] else '/' :: natChars q.den)

/-- String form of `ratChars`. -/
def floatStr (q : ℚ) : String := ⟨ratChars q⟩

/-! ## `TimeInput` widget state and `get_ffmpeg_args` (lines 179-289) -/

/-- State of the `TimeInput` widget: the combo index (`0` = absolute
start/end range, otherwise retained duration) and the free-text fields. -/
structure TimeInput where
  mode : Nat
  start_input : String
  end_input : String
  duration_input : String

/-- Embedding of `TimeInput.get_ffmpeg_args` (lines 266-285): in range
mode emit `-ss` only for a positive start and `-to` only for a non-empty
end text parsing strictly above the start; in duration mode emit `-t`
only for a non-empty duration text parsing to a positive value. -/
def TimeInput.get_ffmpeg_args (ti : TimeInput) : List String :=
  if ti.mode = 0 then
    (if 0 < parse_time_input ti.start_input then
      ["-ss", floatStr (parse_time_input ti.start_input)]
    else []) ++
      (if pyStrip ti.end_input = "" then []
       else if parse_time_input ti.start_input
           < parse_time_input (pyStrip ti.end_input) then
         ["-to", floatStr (parse_time_input (pyStrip ti.end_input))]
       else [])
  else
    if pyStrip ti.duration_input = "" then []
    else if 0 < parse_time_input (pyStrip ti.duration_input) then
      ["-t", floatStr (parse_time_input (pyStrip ti.duration_input))]
    else []

/-! ## Path helpers (pathlib / os.path used by the builder) -/

/-- First character of a string, if any. -/
def strHead (s : String) : Option Char := s.data.head?

/-- Last character of a string, if any. -/
def strLast (s : String) : Option Char := s.data.getLast?

/-- pathlib `Path(p).parent` for the plain file paths the GUI hands over
(no trailing-separator or duplicate-separator normalization): everything
before the last `/`, `"."` when there is no `/`, `"/"` when the last `/`
is the leading one. -/
def pathParent (p : String) : String :=
  match p.data.reverse.dropWhile (fun c => c ≠ '/') with
  | [] => "."
  | _ :: rest => if rest = [] then "/" else ⟨rest.reverse⟩

/-- pathlib `Path(p).name`: the final path component. -/
def pathName (p : String) : String :=
  ⟨(p.data.reverse.takeWhile (fun c => c ≠ '/')).reverse⟩

/-- pathlib `Path(p).suffix`: the extension of the final component,
dot included; empty when the component has no interior dot. -/
def pathSuffix (p : String) : String :=
  let name := (pathName p).data
  let pre := name.reverse.takeWhile (fun c => c ≠ '.')
  if pre.length = name.length then ""
  else if pre.length + 1 = name.length then ""
  else if pre = [] then ""
  else ⟨'.' :: pre.reverse⟩

/-- pathlib `Path(p).stem`: the final component with its suffix removed. -/
def pathStem (p : String) : String :=
  let name := (pathName p).data
  ⟨name.take (name.length - (pathSuffix p).data.length)⟩

/-- Python `str.lower()` (ASCII, which covers every extension involved). -/
def pyLower (s : String) : String := ⟨s.data.map Char.toLower⟩

/-- posix `os.path.join` for two components as the source uses it. -/
def os_path_join (a b : String) : String :=
  if strHead b = some '/' then b
  else if a = "" then b
  else if strLast a = some '/' then a ++ b
  else a ++ "/" ++ b

/-! ## `MainWindow` state and command construction (lines 637-711) -/

/-- Stereo channel panel state: export checkbox, trim widget, suffix text. -/
structure ChannelBox where
  enabled : Bool
  time : TimeInput
  suffix_input : String

/-- Mono panel state: trim widget and suffix text. -/
structure MonoBox where
  time : TimeInput
  suffix_input : String

/-- The `MainWindow` state read by the command builder. -/
structure MainWindow where
  input_file : String
  is_mono : Bool
  output_dir_input : String
  format_combo : String
  left_channel : ChannelBox
  right_channel : ChannelBox
  mono_channel : MonoBox

/-- Embedding of `MainWindow._codec_args` (lines 699-711): fixed lookup
from output extension to encoder/quality arguments; anything else gets
no extra arguments. -/
def MainWindow._codec_args (ext : String) : List String :=
  if ext = ".mp3" then ["-codec:a", "libmp3lame", "-q:a", "2"]
  else if ext = ".flac" then ["-codec:a", "flac"]
  else if ext = ".m4a" then ["-codec:a", "aac", "-b:a", "192k"]
  else if ext = ".ogg" then ["-codec:a", "libvorbis", "-q:a", "6"]
  else if ext = ".wav" then ["-codec:a", "pcm_s16le"]
  else []

/-- Embedding of `MainWindow._get_output_ext` (lines 637-648). -/
def MainWindow._get_output_ext (w : MainWindow) : String :=
  let fmt_map : List (String × String) :=
    [("WAV", ".wav"), ("MP3", ".mp3"), ("FLAC", ".flac"),
     ("AAC (m4a)", ".m4a"), ("OGG", ".ogg")]
  if w.format_combo = "与源文件相同" then pyLower (pathSuffix w.input_file)
  else (fmt_map.lookup w.format_combo).getD ".wav"

/-- Embedding of `MainWindow._build_mono_command` (lines 687-697). -/
def MainWindow._build_mono_command (w : MainWindow) (stem ext out_dir : String) :
    List (String × List String) :=
  let suffix :=
    if pyStrip w.mono_channel.suffix_input = "" then "_trimmed"
    else pyStrip w.mono_channel.suffix_input
  let time_args := w.mono_channel.time.get_ffmpeg_args
  let output_path := os_path_join out_dir (stem ++ suffix ++ ext)
  [("导出单声道裁剪 → " ++ pathName output_path,
    ["ffmpeg", "-y", "-i", w.input_file] ++ time_args ++
      MainWindow._codec_args ext ++ [output_path])]

/-- One iteration of the stereo loop of `_build_commands` (lines 670-683):
the commands contributed by one channel slot. -/
def MainWindow.channel_command (w : MainWindow) (out_dir stem ext : String)
    (cfg : ChannelBox) (ch_idx : Nat) (ch_name : String) :
    List (String × List String) :=
  if cfg.enabled then
    let suffix :=
      if pyStrip cfg.suffix_input = "" then (if ch_idx = 0 then "_left" else "_right")
      else pyStrip cfg.suffix_input
    let time_args := cfg.time.get_ffmpeg_args
    let output_path := os_path_join out_dir (stem ++ suffix ++ ext)
    let pan_filter := "pan=mono|c0=c" ++ natStr ch_idx
    [("导出" ++ ch_name ++ " → " ++ pathName output_path,
      ["ffmpeg", "-y", "-i", w.input_file] ++ time_args ++ ["-af", pan_filter] ++
        MainWindow._codec_args ext ++ [output_path])]
  else []

/-- Embedding of `MainWindow._build_commands` (lines 650-685). -/
def MainWindow._build_commands (w : MainWindow) : List (String × List String) :=
  if w.input_file = "" then []
  else
    let out_dir :=
      if pyStrip w.output_dir_input = "" then pathParent w.input_file
      else pyStrip w.output_dir_input
    let stem := pathStem w.input_file
    let ext := w._get_output_ext
    if w.is_mono then w._build_mono_command stem ext out_dir
    else
      w.channel_command out_dir stem ext w.left_channel 0 "左声道" ++
        w.channel_command out_dir stem ext w.right_channel 1 "右声道"

/-! ## `FFmpegWorker.run` (lines 87-128)

The worker walks the command list sequentially.  The behaviour of the
outside world is abstracted by `WorkerEnv`: what spawning the k-th
command does (`exec`), and the value of the shared cancellation flag at
the two points the loop reads it (`cancelAtStart` before spawning,
`cancelAfterWait` after `communicate` returns).  The run outcome records
the terminal `finished` signal payload plus, for the temporal claims,
which commands were spawned and which in-flight processes the worker
terminated. -/

/-- What happens when the worker spawns and waits on one command. -/
inductive ExecResult where
  /-- The process finished within the 300 s ceiling with this exit code
  and captured stderr text. -/
  | exited (code : ℤ) (stderr : String)
  /-- `communicate(timeout=300)` raised `subprocess.TimeoutExpired`. -/
  | timedOut
  /-- Spawning or waiting raised some other exception with this text. -/
  | raised (msg : String)
deriving DecidableEq

/-- External behaviour of one run, indexed by command position. -/
structure WorkerEnv where
  exec : Nat → ExecResult
  cancelAtStart : Nat → Bool
  cancelAfterWait : Nat → Bool

/-- Observable outcome of a run: the `finished(success, message)` signal
payload, the indices of commands actually spawned (in order), and the
indices at which `proc.terminate()` was called. -/
structure RunResult where
  success : Bool
  message : String
  invoked : List Nat
  terminated : List Nat
deriving DecidableEq

/-- The loop of `FFmpegWorker.run` from absolute command index `k` on. -/
def runFrom (env : WorkerEnv) : Nat → List (String × List String) → RunResult
  | _, [] => ⟨true, "所有任务完成！", [], []⟩
  | k, _ :: rest =>
    if env.cancelAtStart k then ⟨false, "已取消", [], []⟩
    else
      match env.exec k with
      | .timedOut => ⟨false, "处理超时，请检查文件", [k], []⟩
      | .raised msg => ⟨false, "执行错误: " ++ msg, [k], []⟩
      | .exited code stderr =>
        if env.cancelAfterWait k then ⟨false, "已取消", [k], [k]⟩
        else if code ≠ 0 then ⟨false, "命令失败:\n" ++ pyStrip stderr, [k], []⟩
        else
          let r := runFrom env (k + 1) rest
          ⟨r.success, r.message, k :: r.invoked, r.terminated⟩

/-- Embedding of `FFmpegWorker.run`: execute the command list from the
start.  Progress signals are not modelled; the claims concern the
terminal outcome and which commands get spawned/terminated. -/
def FFmpegWorker.run (env : WorkerEnv) (commands : List (String × List String)) :
    RunResult :=
  runFrom env 0 commands

/-- Up to command index `k`, nothing cancels and every spawned command
exits with status zero. -/
def cleanBefore (env : WorkerEnv) (k : Nat) : Prop :=
  ∀ j, j < k →
    env.cancelAtStart j = false ∧ env.cancelAfterWait j = false ∧
      ∃ s, env.exec j = ExecResult.exited 0 s

/-! ## `get_audio_info` (lines 21-50)

The ffprobe invocation is abstracted by `ProbeRun`: the `subprocess.run`
call either raises (timeout or another exception) or completes with a
return code and stdout.  `json.loads` of the stdout is abstracted as an
optional already-parsed JSON value (`none` models malformed output, on
which `json.loads` raises).  Everything after that point — dictionary
access, `float`/`int` conversions, the stream scan — is repo logic and
is embedded faithfully, with Python exceptions modelled by `Except`. -/

/-- Parsed JSON values. -/
inductive JValue where
  | null
  | bool (b : Bool)
  | num (q : ℚ)
  | str (s : String)
  | arr (xs : List JValue)
  | obj (fields : List (String × JValue))

/-- How the external prober invocation went. -/
inductive ProbeRun where
  /-- `subprocess.run` raised `TimeoutExpired` (30 s ceiling). -/
  | timedOut
  /-- `subprocess.run` raised some other exception (e.g. tool missing). -/
  | raised (msg : String)
  /-- The process completed with this return code; `stdout` is the parse
  of its standard output, `none` when `json.loads` would raise. -/
  | completed (returncode : ℤ) (stdout : Option JValue)

/-- Python `d.get(key, default)`: raises (`AttributeError`) unless the
value is an object. -/
def JValue.pyGet : JValue → String → JValue → Except String JValue
  | .obj fields, key, dflt => .ok ((fields.lookup key).getD dflt)
  | _, _, _ => .error "AttributeError: object has no attribute get"

/-- Python `float(x)` on a JSON value. -/
def pyFloatOfJ : JValue → Except String ℚ
  | .num q => .ok q
  | .bool b => .ok (if b then 1 else 0)
  | .str s =>
    match pyFloat? s with
    | some q => .ok q
    | none => .error ("could not convert string to float: " ++ s)
  | _ => .error "float() argument must be a string or a real number"

/-- Digits of an integer literal accepted by Python `int(str)`:
optional sign and decimal digits (whitespace already stripped). -/
def pyIntOfChars (cs : List Char) : Option ℤ :=
  let sb : ℤ × List Char :=
    match cs with
    | '+' :: t => (1, t)
    | '-' :: t => (-1, t)
    | _ => (1, cs)
  if !sb.2.isEmpty && allDigits sb.2 then some (sb.1 * (digitsNat sb.2 : ℤ)) else none

/-- Truncation toward zero, as Python `int()` applies to a float. -/
def ratTrunc (q : ℚ) : ℤ := if 0 ≤ q then ⌊q⌋ else -⌊-q⌋

/-- Python `int(x)` on a JSON value. -/
def pyIntOfJ : JValue → Except String ℤ
  | .num q => .ok (ratTrunc q)
  | .bool b => .ok (if b then 1 else 0)
  | .str s =>
    match pyIntOfChars (pyStrip s).data with
    | some z => .ok z
    | none => .error ("invalid literal for int() with base 10: " ++ s)
  | _ => .error "int() argument must be a string or a real number"

/-- Python truthiness of a JSON value. -/
def JValue.truthy : JValue → Bool
  | .null => false
  | .bool b => b
  | .num q => !(q == 0)
  | .str s => !(s == "")
  | .arr xs => !xs.isEmpty
  | .obj fields => !fields.isEmpty

/-- Iterating `for stream in data.get("streams", [])`: a JSON array
iterates its elements; iterating a non-empty string or object reaches
`stream.get(...)` on a string and raises; the remaining kinds raise
`TypeError` at the `for` itself.  (Empty strings/objects iterate zero
times.) -/
def streamsOf : JValue → Except String (List JValue)
  | .arr xs => .ok xs
  | .str s => if s = "" then .ok [] else .error "AttributeError: str has no attribute get"
  | .obj fields =>
    if fields.isEmpty then .ok [] else .error "AttributeError: str has no attribute get"
  | _ => .error "TypeError: object is not iterable"

/-- The loop body scan: first stream whose `codec_type` equals `audio`. -/
def findAudioStream : List JValue → Except String (Option JValue)
  | [] => .ok none
  | s :: rest => do
    let ct ← s.pyGet "codec_type" JValue.null
    if ct matches JValue.str "audio" then pure (some s) else findAudioStream rest

/-- The descriptor-building part of `get_audio_info` (lines 33-48),
given the parsed JSON; an `error` result models an exception reaching
the enclosing `except` clause. -/
def buildAudioInfo (data : JValue) : Except String (List (String × JValue)) := do
  let fmt ← data.pyGet "format" (JValue.obj [])
  let durationJ ← fmt.pyGet "duration" (JValue.num 0)
  let duration ← pyFloatOfJ durationJ
  let sizeJ ← fmt.pyGet "size" (JValue.num 0)
  let size ← pyIntOfJ sizeJ
  let formatName ← fmt.pyGet "format_long_name" (JValue.str "Unknown")
  let base : List (String × JValue) :=
    [("duration", JValue.num duration), ("size", JValue.num (size : ℚ)),
     ("format_name", formatName)]
  let streamsJ ← data.pyGet "streams" (JValue.arr [])
  let streams ← streamsOf streamsJ
  match ← findAudioStream streams with
  | none => pure base
  | some stream => do
    let channels ← stream.pyGet "channels" (JValue.num 0)
    let sampleRate ← stream.pyGet "sample_rate" (JValue.str "Unknown")
    let codec ← stream.pyGet "codec_name" (JValue.str "Unknown")
    let bitRateJ ← stream.pyGet "bit_rate" JValue.null
    let bitRate ←
      if bitRateJ.truthy then do
        let z ← pyIntOfJ bitRateJ
        pure (JValue.num (z : ℚ))
      else pure (JValue.num 0)
    let layout ← stream.pyGet "channel_layout" (JValue.str "Unknown")
    pure (base ++
      [("channels", channels), ("sample_rate", sampleRate), ("codec", codec),
       ("bit_rate", bitRate), ("channel_layout", layout)])

/-- Embedding of `get_audio_info`: non-zero exit yields the empty
descriptor; a timeout or any exception yields a descriptor holding only
an error message.  The function is total — no exception escapes. -/
def get_audio_info (probe : ProbeRun) : List (String × JValue) :=
  match probe with
  | .timedOut => [("error", JValue.str "Command timed out after 30 seconds")]
  | .raised msg => [("error", JValue.str msg)]
  | .completed rc stdout =>
    if rc ≠ 0 then []
    else
      match stdout with
      | none => [("error", JValue.str "Expecting value: line 1 column 1 (char 0)")]
      | some data =>
        match buildAudioInfo data with
        | .ok info => info
        | .error e => [("error", JValue.str e)]

/-! ## Channel-count branching in `_load_file` (lines 585-599) -/

/-- Python `x == 1` for a value taken from the descriptor (`True == 1`
holds in Python; `1.0 == 1` holds; strings and containers do not equal
`1`). -/
def pyEqOne : JValue → Bool
  | .num q => q == 1
  | .bool b => b
  | _ => false

/-- The channel count `_load_file` works with:
`self._audio_info.get("channels", 2)`. -/
def loadedChannels (info : List (String × JValue)) : JValue :=
  (info.lookup "channels").getD (JValue.num 2)

/-- `self._is_mono = (channels == 1)` in `_load_file`. -/
def loadedIsMono (info : List (String × JValue)) : Bool :=
  pyEqOne (loadedChannels info)

/-! ## Helper lemmas: decimal rendering -/

theorem natCharsAux_fuel (f₁ : Nat) :
    ∀ f₂ n, n < f₁ → n < f₂ → natCharsAux f₁ n = natCharsAux f₂ n := by
  induction f₁ with
  | zero => intro f₂ n h; omega
  | succ f ih =>
    intro f₂ n h₁ h₂
    match f₂, h₂ with
    | f₂ + 1, _ =>
      show natCharsAux (f + 1) n = natCharsAux (f₂ + 1) n
      unfold natCharsAux
      by_cases hn : n < 10
      · simp [hn]
      · have hdiv : n / 10 < n := Nat.div_lt_self (by omega) (by omega)
        simp only [hn, if_false]
        rw [ih f₂ (n / 10) (by omega) (by omega)]

theorem natChars_lt10 (n : Nat) (h : n < 10) : natChars n = [Nat.digitChar n] := by
  unfold natChars natCharsAux
  simp [h]

theorem natChars_step (n : Nat) (h : 10 ≤ n) :
    natChars n = natChars (n / 10) ++ [Nat.digitChar (n % 10)] := by
  unfold natChars
  conv_lhs => unfold natCharsAux
  have : ¬ n < 10 := by omega
  simp only [this, if_false]
  rw [natCharsAux_fuel n (n / 10 + 1) (n / 10)
    (Nat.lt_of_lt_of_le (Nat.div_lt_self (by omega) (by omega)) (le_refl n)) (by omega)]

theorem digitChar_isDigit (n : Nat) (h : n < 10) : (Nat.digitChar n).isDigit = true := by
  interval_cases n <;> decide

theorem natChars_all_digits (n : Nat) : ∀ c ∈ natChars n, c.isDigit = true := by
  induction n using Nat.strong_induction_on with
  | _ n ih =>
    by_cases h : n < 10
    · rw [natChars_lt10 n h]
      intro c hc
      simp at hc
      subst hc
      exact digitChar_isDigit n h
    · rw [natChars_step n (by omega)]
      intro c hc
      rcases List.mem_append.mp hc with h1 | h2
      · exact ih (n / 10) (Nat.div_lt_self (by omega) (by omega)) c h1
      · simp at h2
        subst h2
        exact digitChar_isDigit _ (Nat.mod_lt n (by omega))

theorem natChars_length_one (n : Nat) (h : n < 10) : (natChars n).length = 1 := by
  rw [natChars_lt10 n h]; rfl

theorem natChars_length_two (n : Nat) (h₁ : 10 ≤ n) (h₂ : n < 100) :
    (natChars n).length = 2 := by
  rw [natChars_step n h₁]
  have : n / 10 < 10 := by omega
  simp [natChars_length_one (n / 10) this]

theorem pad2_shape (n : Nat) (h : n < 100) :
    (pad2 n).data.length = 2 ∧ ∀ c ∈ (pad2 n).data, c.isDigit = true := by
  unfold pad2
  by_cases h10 : n < 10
  · simp only [h10, if_true]
    refine ⟨by simp [natChars_length_one n h10], ?_⟩
    intro c hc
    rcases List.mem_cons.mp hc with h1 | h2
    · subst h1; decide
    · exact natChars_all_digits n c h2
  · simp only [h10, if_false]
    exact ⟨natChars_length_two n (by omega) h, natChars_all_digits n⟩

theorem pad3_shape (n : Nat) (h : n < 1000) :
    (pad3 n).data.length = 3 ∧ ∀ c ∈ (pad3 n).data, c.isDigit = true := by
  unfold pad3
  by_cases h10 : n < 10
  · simp only [h10, if_true]
    refine ⟨by simp [natChars_length_one n h10], ?_⟩
    intro c hc
    rcases List.mem_cons.mp hc with h1 | hc
    · subst h1; decide
    rcases List.mem_cons.mp hc with h1 | h2
    · subst h1; decide
    · exact natChars_all_digits n c h2
  · by_cases h100 : n < 100
    · simp only [h10, h100, if_false, if_true]
      refine ⟨by simp [natChars_length_two n (by omega) h100], ?_⟩
      intro c hc
      rcases List.mem_cons.mp hc with h1 | h2
      · subst h1; decide
      · exact natChars_all_digits n c h2
    · simp only [h10, h100, if_false]
      refine ⟨?_, natChars_all_digits n⟩
      show (natChars n).length = 3
      rw [natChars_step n (by omega)]
      have : 10 ≤ n / 10 := by omega
      simp [natChars_length_two (n / 10) this (by omega)]

/-! ## Helper lemmas: strings and floor arithmetic -/

theorem str_data_append (a b : String) : (a ++ b).data = a.data ++ b.data := by
  cases a; cases b; rfl

theorem pyFloorMod_nonneg (a b : ℚ) (hb : 0 < b) : 0 ≤ pyFloorMod a b := by
  unfold pyFloorMod
  have h1 : (⌊a / b⌋ : ℚ) ≤ a / b := Int.floor_le (a / b)
  have h2 : b * (⌊a / b⌋ : ℚ) ≤ b * (a / b) :=
    mul_le_mul_of_nonneg_left h1 (le_of_lt hb)
  rw [mul_div_cancel₀ a (ne_of_gt hb)] at h2
  linarith

theorem pyFloorMod_lt (a b : ℚ) (hb : 0 < b) : pyFloorMod a b < b := by
  unfold pyFloorMod
  have h1 : a / b < (⌊a / b⌋ : ℚ) + 1 := Int.lt_floor_add_one (a / b)
  have h2 : b * (a / b) < b * ((⌊a / b⌋ : ℚ) + 1) :=
    (mul_lt_mul_left hb).mpr h1
  rw [mul_div_cancel₀ a (ne_of_gt hb)] at h2
  linarith

theorem roundHalfEven_le (q : ℚ) : roundHalfEven q ≤ ⌊q⌋ + 1 := by
  unfold roundHalfEven
  split
  · omega
  split
  · omega
  split <;> omega

theorem roundHalfEven_ge (q : ℚ) : ⌊q⌋ ≤ roundHalfEven q := by
  unfold roundHalfEven
  split
  · omega
  split
  · omega
  split <;> omega

theorem roundHalfEven_nonneg (q : ℚ) (h : 0 ≤ q) : 0 ≤ roundHalfEven q := by
  have h1 := roundHalfEven_ge q
  have h2 : (0 : ℤ) ≤ ⌊q⌋ := Int.floor_nonneg.mpr h
  omega

/-! ## Timestamp shape -/

/-- A string of the exact shape `HH:MM:SS.mmm`: two digits, colon, two
digits, colon, two digits, dot, three digits. -/
def TimestampShape (s : String) : Prop :=
  ∃ hh mm ss mmm : List Char,
    s.data = hh ++ ':' :: (mm ++ ':' :: (ss ++ '.' :: mmm)) ∧
    hh.length = 2 ∧ mm.length = 2 ∧ ss.length = 2 ∧ mmm.length = 3 ∧
    ∀ c, c ∈ hh ∨ c ∈ mm ∨ c ∈ ss ∨ c ∈ mmm → c.isDigit = true

theorem TimestampShape.length {s : String} (h : TimestampShape s) :
    s.data.length = 12 := by
  obtain ⟨hh, mm, ss, mmm, hdata, h2, h3, h4, h5, -⟩ := h
  rw [hdata]
  simp [List.length_append, h2, h3, h4, h5]

/-! ## Claim C7: the time parser -/

/-- Claim C7: `parse_time_input` returns 3723.5 for `"01:02:03.5"`,
150.0 for `"02:30"`, 45.0 for `"45"`, and 0.0 for the empty string and
for every unparseable string.  (It is total by construction, which is
the embedding of "never raises".) -/
theorem C7_parse_time_input :
    parse_time_input "01:02:03.5" = (7447 : ℚ) / 2 ∧
    parse_time_input "02:30" = 150 ∧
    parse_time_input "45" = 45 ∧
    parse_time_input "" = 0 ∧
    ∀ s, unparseable s = true → parse_time_input s = 0 := by
  refine ⟨?_, ?_, ?_, ?_, ?_⟩
  · rw [show ((7447 : ℚ) / 2) = mkRat 7447 2 by rw [Rat.mkRat_eq_div]; norm_num]
    with_unfolding_all rfl
  · rw [show (150 : ℚ) = mkRat 150 1 by rw [Rat.mkRat_eq_div]; norm_num]
    with_unfolding_all rfl
  · rw [show (45 : ℚ) = mkRat 45 1 by rw [Rat.mkRat_eq_div]; norm_num]
    with_unfolding_all rfl
  · with_unfolding_all rfl
  · intro s h
    unfold unparseable at h
    unfold parse_time_input
    simp only [Bool.and_eq_true, bne_iff_ne, ne_eq, Bool.or_eq_true,
      Option.isNone_iff_eq_none] at h
    obtain ⟨⟨hne, hmatch⟩, hnone⟩ := h
    rw [if_neg hne]
    simp only [hnone, Option.getD_none]
    split
    · rename_i a b c heq
      rw [heq] at hmatch
      simp only [] at hmatch
      split
      · rename_i x y z hx hy hz
        rw [hx, hy, hz] at hmatch
        simp at hmatch
      · rfl
    · rename_i a b heq
      rw [heq] at hmatch
      simp only [] at hmatch
      split
      · rename_i x y hx hy
        rw [hx, hy] at hmatch
        simp at hmatch
      · rfl
    · rfl

/-- Witness for C7: a concrete unparseable string maps to zero. -/
theorem C7_witness : unparseable "abc" = true ∧ parse_time_input "abc" = 0 :=
  ⟨by with_unfolding_all rfl,
   C7_parse_time_input.2.2.2.2 "abc" (by with_unfolding_all rfl)⟩

/-! ## Claim C8: the duration formatter -/

theorem format_duration_pos (x : ℚ) (hx : 0 < x) :
    format_duration x =
      pad2 (⌊x / (3600 : ℚ)⌋).toNat ++ ":" ++
        pad2 (⌊pyFloorMod x (3600 : ℚ) / (60 : ℚ)⌋).toNat ++ ":" ++
        formatSec063 (pyFloorMod x (60 : ℚ)) := by
  rw [format_duration, if_neg (not_le.mpr hx)]

/-- Claim C8, amended: `format_duration` yields `"00:00:00.000"` for
every input ≤ 0, `"01:02:03.500"` for 3723.5, and for every non-negative
input below 360000 seconds (100 hours) a string of the exact zero-padded
shape `HH:MM:SS.mmm`; from 100 hours on the hour field widens beyond two
digits. -/
theorem C8_format_duration (x : ℚ) :
    (x ≤ 0 → format_duration x = "00:00:00.000") ∧
    format_duration ((7447 : ℚ) / 2) = "01:02:03.500" ∧
    (0 ≤ x → x < (360000 : ℚ) → TimestampShape (format_duration x)) := by
  refine ⟨?_, ?_, ?_⟩
  · intro h
    rw [format_duration, if_pos h]
  · rw [show ((7447 : ℚ) / 2) = mkRat 7447 2 by rw [Rat.mkRat_eq_div]; norm_num]
    with_unfolding_all rfl
  · intro h0 h1
    by_cases hx : x ≤ 0
    · rw [format_duration, if_pos hx]
      refine ⟨['0', '0'], ['0', '0'], ['0', '0'], ['0', '0', '0'],
        by decide, rfl, rfl, rfl, rfl, ?_⟩
      intro c hc
      have hc0 : c = '0' := by rcases hc with h | h | h | h <;> simp_all
      rw [hc0]
      decide
    · push_neg at hx
      rw [format_duration_pos x hx]
      -- hour bound
      have hh : (⌊x / (3600 : ℚ)⌋).toNat < 100 := by
        have : ⌊x / (3600 : ℚ)⌋ < 100 := by
          apply Int.floor_lt.mpr
          rw [div_lt_iff₀ (by norm_num : (0 : ℚ) < 3600)]
          push_cast
          linarith
        omega
      -- minute bound
      have hmo0 : 0 ≤ pyFloorMod x (3600 : ℚ) :=
        pyFloorMod_nonneg x _ (by norm_num)
      have hmo1 : pyFloorMod x (3600 : ℚ) < 3600 :=
        pyFloorMod_lt x (3600 : ℚ) (by norm_num)
      have hm : (⌊pyFloorMod x (3600 : ℚ) / (60 : ℚ)⌋).toNat < 100 := by
        have : ⌊pyFloorMod x (3600 : ℚ) / (60 : ℚ)⌋ < 60 := by
          apply Int.floor_lt.mpr
          rw [div_lt_iff₀ (by norm_num : (0 : ℚ) < 60)]
          push_cast
          linarith
        omega
      -- seconds part
      have hs0 : 0 ≤ pyFloorMod x (60 : ℚ) :=
        pyFloorMod_nonneg x _ (by norm_num)
      have hs1 : pyFloorMod x (60 : ℚ) < 60 :=
        pyFloorMod_lt x (60 : ℚ) (by norm_num)
      have hmn : (roundHalfEven (pyFloorMod x (60 : ℚ) * (1000 : ℚ))).toNat
          ≤ 60000 := by
        have hq1 : pyFloorMod x (60 : ℚ) * (1000 : ℚ) < 60000 := by
          nlinarith
        have hfl : ⌊pyFloorMod x (60 : ℚ) * (1000 : ℚ)⌋ < 60000 :=
          Int.floor_lt.mpr (by push_cast; linarith)
        have := roundHalfEven_le (pyFloorMod x (60 : ℚ) * (1000 : ℚ))
        omega
      set mn := (roundHalfEven (pyFloorMod x (60 : ℚ) * (1000 : ℚ))).toNat with hmndef
      obtain ⟨lh, dh⟩ := pad2_shape (⌊x / (3600 : ℚ)⌋).toNat hh
      obtain ⟨lm, dm⟩ := pad2_shape (⌊pyFloorMod x (3600 : ℚ) / (60 : ℚ)⌋).toNat hm
      obtain ⟨ls, ds⟩ := pad2_shape (mn / 1000) (by omega)
      obtain ⟨lf, df⟩ := pad3_shape (mn % 1000) (by omega)
      refine ⟨(pad2 (⌊x / (3600 : ℚ)⌋).toNat).data,
        (pad2 (⌊pyFloorMod x (3600 : ℚ) / (60 : ℚ)⌋).toNat).data,
        (pad2 (mn / 1000)).data, (pad3 (mn % 1000)).data, ?_, lh, lm, ls, lf, ?_⟩
      · show (_ ++ ":" ++ _ ++ ":" ++ (pad2 (mn / 1000) ++ "." ++ pad3 (mn % 1000))).data = _
        simp only [str_data_append]
        simp [List.append_assoc]
      · intro c hc
        rcases hc with h | h | h | h
        · exact dh c h
        · exact dm c h
        · exact ds c h
        · exact df c h

/-- Witness for C8: the branches of the claim at concrete inputs. -/
theorem C8_witness :
    format_duration (-1 : ℚ) = "00:00:00.000" ∧
    TimestampShape (format_duration (90 : ℚ)) :=
  ⟨(C8_format_duration (-1)).1 (by norm_num),
   (C8_format_duration (90 : ℚ)).2.2 (by norm_num) (by norm_num)⟩

/-- Counterexample for C8 as frozen: at 100 hours the result is
`"100:00:00.000"`, which is not of the shape `HH:MM:SS.mmm` (its hour
field has three digits, so the string has 13 characters, not 12). -/
theorem C8_counterexample :
    format_duration (360000 : ℚ) = "100:00:00.000" ∧
    ¬ TimestampShape (format_duration (360000 : ℚ)) := by
  have he : (360000 : ℚ) = mkRat 360000 1 := by rw [Rat.mkRat_eq_div]; norm_num
  constructor
  · rw [he]; with_unfolding_all rfl
  · intro h
    have hlen := h.length
    rw [he] at hlen
    have heval : (format_duration (mkRat 360000 1)).data.length = 13 := by
      with_unfolding_all rfl
    omega

/-! ## Claim C3: the codec-argument lookup -/

theorem codec_args_eq_nil_iff (ext : String) :
    MainWindow._codec_args ext = [] ↔
      ext ∉ ([".mp3", ".flac", ".m4a", ".ogg", ".wav"] : List String) := by
  constructor
  · intro h hmem
    fin_cases hmem <;> exact absurd h (by decide)
  · intro h
    simp only [List.mem_cons, List.not_mem_nil, or_false, not_or] at h
    obtain ⟨h1, h2, h3, h4, h5⟩ := h
    unfold MainWindow._codec_args
    rw [if_neg h1, if_neg h2, if_neg h3, if_neg h4, if_neg h5]

/-- Counterexample for C3 as frozen: there is no set of six distinct
extensions all recognized by the codec lookup — the recognized set has
exactly five members. -/
theorem C3_counterexample :
    ¬ ∃ l : List String, l.Nodup ∧ l.length = 6 ∧
        ∀ e ∈ l, MainWindow._codec_args e ≠ [] := by
  rintro ⟨l, hnd, hlen, hne⟩
  have hsub : l ⊆ [".mp3", ".flac", ".m4a", ".ogg", ".wav"] := by
    intro e he
    have h := hne e he
    rw [Ne, codec_args_eq_nil_iff, not_not] at h
    exact h
  have := (List.subperm_of_subset hnd hsub).length_le
  rw [hlen] at this
  simp at this

/-- Claim C3, amended: the codec-argument policy is a fixed lookup
covering exactly five recognized extensions (`.mp3`, `.flac`, `.m4a`,
`.ogg`, `.wav`), each mapped to a canonical encoder/quality argument
set, and every other output extension gets no extra codec arguments. -/
theorem C3_codec_args :
    MainWindow._codec_args ".mp3" = ["-codec:a", "libmp3lame", "-q:a", "2"] ∧
    MainWindow._codec_args ".flac" = ["-codec:a", "flac"] ∧
    MainWindow._codec_args ".m4a" = ["-codec:a", "aac", "-b:a", "192k"] ∧
    MainWindow._codec_args ".ogg" = ["-codec:a", "libvorbis", "-q:a", "6"] ∧
    MainWindow._codec_args ".wav" = ["-codec:a", "pcm_s16le"] ∧
    ∀ ext, ext ∉ ([".mp3", ".flac", ".m4a", ".ogg", ".wav"] : List String) →
      MainWindow._codec_args ext = [] :=
  ⟨rfl, rfl, rfl, rfl, rfl, fun ext h => (codec_args_eq_nil_iff ext).mpr h⟩

/-- Witness for C3: a concrete unrecognized extension gets no codec
arguments. -/
theorem C3_witness : MainWindow._codec_args ".opus" = [] :=
  C3_codec_args.2.2.2.2.2 ".opus" (by decide)

/-! ## Claim C1: the trim-argument builder -/

theorem ratChars_mem (q : ℚ) :
    ∀ c ∈ ratChars q, c.isDigit = true ∨ c = '-' ∨ c = '/' := by
  intro c hc
  unfold ratChars at hc
  rcases List.mem_append.mp hc with h | h
  · rcases List.mem_append.mp h with h1 | h2
    · split at h1
      · right; left; simpa using h1
      · simp at h1
    · left; exact natChars_all_digits _ c h2
  · split at h
    · simp at h
    · rcases List.mem_cons.mp h with h1 | h2
      · right; right; exact h1
      · left; exact natChars_all_digits _ c h2

theorem floatStr_ne (q : ℚ) (s : String)
    (h : ∃ c ∈ s.data, ¬(c.isDigit = true ∨ c = '-' ∨ c = '/')) :
    floatStr q ≠ s := by
  intro he
  obtain ⟨c, hc, hnot⟩ := h
  rw [← he] at hc
  exact hnot (ratChars_mem q c hc)

theorem ss_ne_floatStr (q : ℚ) : ("-ss" : String) ≠ floatStr q :=
  (floatStr_ne q "-ss" ⟨'s', by decide, by decide⟩).symm

theorem to_ne_floatStr (q : ℚ) : ("-to" : String) ≠ floatStr q :=
  (floatStr_ne q "-to" ⟨'t', by decide, by decide⟩).symm

theorem t_ne_floatStr (q : ℚ) : ("-t" : String) ≠ floatStr q :=
  (floatStr_ne q "-t" ⟨'t', by decide, by decide⟩).symm

theorem af_ne_floatStr (q : ℚ) : ("-af" : String) ≠ floatStr q :=
  (floatStr_ne q "-af" ⟨'a', by decide, by decide⟩).symm

/-- Claim C1: in absolute-range mode `-ss` is emitted iff the parsed
start is strictly positive and `-to` is emitted iff the end field is
non-empty and its parsed value is strictly above the parsed start (so
with start 0 and end unset nothing is emitted, and an end ≤ start is
suppressed); in retained-duration mode `-t` is emitted iff the duration
field is non-empty and parses to a strictly positive value. -/
theorem C1_get_ffmpeg_args (ti : TimeInput) :
    (ti.mode = 0 →
      ("-ss" ∈ ti.get_ffmpeg_args ↔ 0 < parse_time_input ti.start_input) ∧
      ("-to" ∈ ti.get_ffmpeg_args ↔
        pyStrip ti.end_input ≠ "" ∧
          parse_time_input ti.start_input
            < parse_time_input (pyStrip ti.end_input)) ∧
      (parse_time_input ti.start_input = 0 → pyStrip ti.end_input = "" →
        ti.get_ffmpeg_args = [])) ∧
    (ti.mode ≠ 0 →
      ("-t" ∈ ti.get_ffmpeg_args ↔
        pyStrip ti.duration_input ≠ "" ∧
          0 < parse_time_input (pyStrip ti.duration_input))) := by
  constructor
  · intro hmode
    have hss := ss_ne_floatStr
    have hto := to_ne_floatStr
    refine ⟨?_, ?_, ?_⟩
    · unfold TimeInput.get_ffmpeg_args
      rw [if_pos hmode]
      by_cases hst : 0 < parse_time_input ti.start_input <;>
        by_cases het : pyStrip ti.end_input = "" <;>
          by_cases hlt : parse_time_input ti.start_input
              < parse_time_input (pyStrip ti.end_input) <;>
        simp +decide [hst, het, hlt, hss _, hto _]
    · unfold TimeInput.get_ffmpeg_args
      rw [if_pos hmode]
      by_cases hst : 0 < parse_time_input ti.start_input <;>
        by_cases het : pyStrip ti.end_input = "" <;>
          by_cases hlt : parse_time_input ti.start_input
              < parse_time_input (pyStrip ti.end_input) <;>
        simp +decide [hst, het, hlt, hss _, hto _]
    · intro h0 he0
      unfold TimeInput.get_ffmpeg_args
      rw [if_pos hmode]
      simp [h0, he0]
  · intro hmode
    have ht := t_ne_floatStr
    unfold TimeInput.get_ffmpeg_args
    rw [if_neg hmode]
    by_cases hdt : pyStrip ti.duration_input = "" <;>
      by_cases hpos : 0 < parse_time_input (pyStrip ti.duration_input) <;>
      simp +decide [hdt, hpos, ht _]

/-- Witness for C1: both modes at concrete widget state. -/
theorem C1_witness :
    ("-ss" ∈ (TimeInput.mk 0 "5" "3" "").get_ffmpeg_args ↔
      0 < parse_time_input "5") ∧
    ("-t" ∈ (TimeInput.mk 1 "0" "" "2.5").get_ffmpeg_args ↔
      pyStrip "2.5" ≠ "" ∧ 0 < parse_time_input (pyStrip "2.5")) :=
  ⟨((C1_get_ffmpeg_args ⟨0, "5", "3", ""⟩).1 rfl).1,
   (C1_get_ffmpeg_args ⟨1, "0", "", "2.5"⟩).2 (by decide)⟩

/-! ## Claims C4 and C5: the command builder -/

theorem mem_of_getLast?_eq {α : Type} :
    ∀ {l : List α} {c : α}, l.getLast? = some c → c ∈ l := by
  intro l
  induction l with
  | nil => intro c h; simp at h
  | cons a t ih =>
    intro c h
    cases t with
    | nil =>
      simp only [List.getLast?_singleton, Option.some.injEq] at h
      simp [h]
    | cons b t2 =>
      rw [List.getLast?_cons_cons] at h
      exact List.mem_cons_of_mem a (ih h)

theorem os_path_join_ne_af (d n : String) (hd : d ≠ "") :
    os_path_join d n ≠ "-af" := by
  by_cases h1 : strHead n = some '/'
  · rw [os_path_join, if_pos h1]
    intro he
    rw [he] at h1
    exact absurd h1 (by decide)
  · by_cases h3 : strLast d = some '/'
    · rw [os_path_join, if_neg h1, if_neg hd, if_pos h3]
      intro he
      have hm : '/' ∈ d.data := mem_of_getLast?_eq h3
      have hdata : (d ++ n).data = "-af".data := congrArg String.data he
      rw [str_data_append] at hdata
      have : '/' ∈ "-af".data := hdata ▸ List.mem_append_left _ hm
      exact absurd this (by decide)
    · rw [os_path_join, if_neg h1, if_neg hd, if_neg h3]
      intro he
      have hdata : (d ++ "/" ++ n).data = "-af".data := congrArg String.data he
      rw [str_data_append, str_data_append] at hdata
      have : '/' ∈ "-af".data := by
        rw [← hdata]
        exact List.mem_append_left _ (List.mem_append_right _ (by simp))
      exact absurd this (by decide)

theorem pathParent_ne_empty (p : String) : pathParent p ≠ "" := by
  unfold pathParent
  split
  · decide
  · split
    · decide
    · rename_i hrest
      intro he
      have := congrArg String.data he
      simp only [String.data] at this
      exact hrest (by simpa using this)

theorem codec_args_no_af (ext : String) :
    ("-af" : String) ∉ MainWindow._codec_args ext := by
  unfold MainWindow._codec_args
  split_ifs <;> decide

theorem get_ffmpeg_args_mem (ti : TimeInput) :
    ∀ x ∈ ti.get_ffmpeg_args,
      x = "-ss" ∨ x = "-to" ∨ x = "-t" ∨ ∃ q, x = floatStr q := by
  intro x hx
  unfold TimeInput.get_ffmpeg_args at hx
  split at hx
  · rcases List.mem_append.mp hx with h | h
    · split at h
      · rcases List.mem_cons.mp h with h1 | h1
        · exact Or.inl h1
        · simp only [List.mem_singleton] at h1
          exact Or.inr (Or.inr (Or.inr ⟨_, h1⟩))
      · simp at h
    · split at h
      · simp at h
      · split at h
        · rcases List.mem_cons.mp h with h1 | h1
          · exact Or.inr (Or.inl h1)
          · simp only [List.mem_singleton] at h1
            exact Or.inr (Or.inr (Or.inr ⟨_, h1⟩))
        · simp at h
  · split at hx
    · simp at hx
    · split at hx
      · rcases List.mem_cons.mp hx with h1 | h1
        · exact Or.inr (Or.inr (Or.inl h1))
        · simp only [List.mem_singleton] at h1
          exact Or.inr (Or.inr (Or.inr ⟨_, h1⟩))
      · simp at hx

theorem build_commands_mono_eq (w : MainWindow) (hf : w.input_file ≠ "")
    (hm : w.is_mono = true) :
    w._build_commands =
      w._build_mono_command (pathStem w.input_file) w._get_output_ext
        (if pyStrip w.output_dir_input = "" then pathParent w.input_file
         else pyStrip w.output_dir_input) := by
  simp only [MainWindow._build_commands, hf, hm, if_true, if_false, ite_true, ite_false]

theorem build_mono_no_af (w : MainWindow) (stem ext out_dir : String)
    (haf : w.input_file ≠ "-af") (hod : out_dir ≠ "") :
    ∀ p ∈ w._build_mono_command stem ext out_dir, ("-af" : String) ∉ p.2 := by
  intro p hp
  simp only [MainWindow._build_mono_command, List.mem_singleton] at hp
  subst hp
  intro hmem
  rcases List.mem_append.mp hmem with hmem1 | hout
  · rcases List.mem_append.mp hmem1 with hmem2 | hcod
    · rcases List.mem_append.mp hmem2 with hl1 | hta
      · rcases List.mem_cons.mp hl1 with h | hl1
        · exact absurd h (by decide)
        rcases List.mem_cons.mp hl1 with h | hl1
        · exact absurd h (by decide)
        rcases List.mem_cons.mp hl1 with h | hl1
        · exact absurd h (by decide)
        rcases List.mem_cons.mp hl1 with h | hl1
        · exact haf h.symm
        · simp at hl1
      · rcases get_ffmpeg_args_mem _ _ hta with h1 | h1 | h1 | ⟨q, h1⟩
        · exact absurd h1 (by decide)
        · exact absurd h1 (by decide)
        · exact absurd h1 (by decide)
        · exact af_ne_floatStr q h1
    · exact codec_args_no_af _ hcod
  · rcases List.mem_cons.mp hout with h | h
    · exact os_path_join_ne_af _ _ hod h.symm
    · simp at h

/-- Claim C4: with a detected channel count of 1 the builder emits
exactly one command, that command carries no channel-isolation filter
(no `-af` argument), and the command list does not depend on the
left/right enable flags.  (The input-path hypotheses exclude only the
degenerate file name `-af`, which the membership formalization of "no
filter argument" needs.) -/
theorem C4_mono_single_command (w : MainWindow) (hm : w.is_mono = true)
    (hf : w.input_file ≠ "") (haf : w.input_file ≠ "-af") :
    w._build_commands.length = 1 ∧
    (∀ b₁ b₂ : Bool,
      ({w with left_channel := { w.left_channel with enabled := b₁ },
               right_channel := { w.right_channel with enabled := b₂ }} :
          MainWindow)._build_commands = w._build_commands) ∧
    (∀ p ∈ w._build_commands, ("-af" : String) ∉ p.2) := by
  refine ⟨?_, ?_, ?_⟩
  · rw [build_commands_mono_eq w hf hm]
    rfl
  · intro b₁ b₂
    rw [build_commands_mono_eq w hf hm,
      build_commands_mono_eq
        ({w with left_channel := { w.left_channel with enabled := b₁ },
                 right_channel := { w.right_channel with enabled := b₂ }}) hf hm]
    rfl
  · intro p hp
    rw [build_commands_mono_eq w hf hm] at hp
    refine build_mono_no_af w _ _ _ haf ?_ p hp
    split
    · exact pathParent_ne_empty _
    · assumption

/-- Witness for C4: a concrete mono window yields exactly one command. -/
theorem C4_witness :
    ((MainWindow.mk "/tmp/a.mp3" true "" "WAV"
        ⟨true, ⟨0, "0", "", ""⟩, "_left"⟩ ⟨true, ⟨0, "0", "", ""⟩, "_right"⟩
        ⟨⟨0, "0", "", ""⟩, "_trimmed"⟩)._build_commands).length = 1 :=
  (C4_mono_single_command _ rfl (by decide) (by decide)).1

/-- Claim C5: no selected input file yields an empty command list, and
in stereo mode two disabled channel flags yield an empty command list. -/
theorem C5_builder_guards (w : MainWindow) :
    (w.input_file = "" → w._build_commands = []) ∧
    (w.is_mono = false → w.left_channel.enabled = false →
      w.right_channel.enabled = false → w._build_commands = []) := by
  constructor
  · intro h
    rw [MainWindow._build_commands, if_pos h]
  · intro hm hl hr
    by_cases hf : w.input_file = ""
    · rw [MainWindow._build_commands, if_pos hf]
    · simp [MainWindow._build_commands, hf, hm, MainWindow.channel_command, hl, hr]

/-- Witness for C5: both guards at concrete windows. -/
theorem C5_witness :
    (MainWindow.mk "" true "" "WAV"
        ⟨true, ⟨0, "0", "", ""⟩, "_left"⟩ ⟨true, ⟨0, "0", "", ""⟩, "_right"⟩
        ⟨⟨0, "0", "", ""⟩, "_trimmed"⟩)._build_commands = [] ∧
    (MainWindow.mk "/tmp/a.mp3" false "" "WAV"
        ⟨false, ⟨0, "0", "", ""⟩, "_left"⟩ ⟨false, ⟨0, "0", "", ""⟩, "_right"⟩
        ⟨⟨0, "0", "", ""⟩, "_trimmed"⟩)._build_commands = [] :=
  ⟨(C5_builder_guards _).1 rfl, (C5_builder_guards _).2 rfl rfl rfl⟩

/-! ## Claims C2 and C6: the sequential job runner -/

theorem runFrom_fail (env : WorkerEnv) :
    ∀ (cmds : List (String × List String)) (k i : Nat) (c : ℤ) (s : String),
      i < cmds.length →
      (∀ j, j < i → env.cancelAtStart (k + j) = false ∧
        env.cancelAfterWait (k + j) = false ∧
        ∃ t, env.exec (k + j) = ExecResult.exited 0 t) →
      env.cancelAtStart (k + i) = false →
      env.cancelAfterWait (k + i) = false →
      env.exec (k + i) = ExecResult.exited c s → c ≠ 0 →
      runFrom env k cmds =
        ⟨false, "命令失败:\n" ++ pyStrip s, List.range' k (i + 1), []⟩ := by
  intro cmds
  induction cmds with
  | nil => intro k i c s hi _ _ _ _ _; simp at hi
  | cons cmd rest ih =>
    intro k i c s hi hclean hcs hcw hex hc
    cases i with
    | zero =>
      rw [Nat.add_zero] at hcs hcw hex
      simp [runFrom, hcs, hex, hcw, hc, List.range']
    | succ i' =>
      obtain ⟨hcs0, hcw0, t, hex0⟩ := by simpa using hclean 0 (by omega)
      have h1 : ∀ j, j < i' → env.cancelAtStart (k + 1 + j) = false ∧
          env.cancelAfterWait (k + 1 + j) = false ∧
          ∃ u, env.exec (k + 1 + j) = ExecResult.exited 0 u := by
        intro j hj
        have := hclean (j + 1) (by omega)
        rwa [show k + (j + 1) = k + 1 + j by omega] at this
      have h2 : env.cancelAtStart (k + 1 + i') = false := by
        rwa [show k + 1 + i' = k + (i' + 1) by omega]
      have h3 : env.cancelAfterWait (k + 1 + i') = false := by
        rwa [show k + 1 + i' = k + (i' + 1) by omega]
      have h4 : env.exec (k + 1 + i') = ExecResult.exited c s := by
        rwa [show k + 1 + i' = k + (i' + 1) by omega]
      have hrec := ih (k + 1) i' c s (by simpa using hi) h1 h2 h3 h4 hc
      simp [runFrom, hcs0, hex0, hcw0, hrec, List.range']

theorem runFrom_cancel (env : WorkerEnv) :
    ∀ (cmds : List (String × List String)) (k i : Nat),
      i < cmds.length →
      (∀ j, j < i → env.cancelAtStart (k + j) = false ∧
        env.cancelAfterWait (k + j) = false ∧
        ∃ t, env.exec (k + j) = ExecResult.exited 0 t) →
      env.cancelAtStart (k + i) = true →
      runFrom env k cmds = ⟨false, "已取消", List.range' k i, []⟩ := by
  intro cmds
  induction cmds with
  | nil => intro k i hi _ _; simp at hi
  | cons cmd rest ih =>
    intro k i hi hclean hcs
    cases i with
    | zero =>
      rw [Nat.add_zero] at hcs
      simp [runFrom, hcs, List.range']
    | succ i' =>
      obtain ⟨hcs0, hcw0, t, hex0⟩ := by simpa using hclean 0 (by omega)
      have h1 : ∀ j, j < i' → env.cancelAtStart (k + 1 + j) = false ∧
          env.cancelAfterWait (k + 1 + j) = false ∧
          ∃ u, env.exec (k + 1 + j) = ExecResult.exited 0 u := by
        intro j hj
        have := hclean (j + 1) (by omega)
        rwa [show k + (j + 1) = k + 1 + j by omega] at this
      have h2 : env.cancelAtStart (k + 1 + i') = true := by
        rwa [show k + 1 + i' = k + (i' + 1) by omega]
      have hrec := ih (k + 1) i' (by simpa using hi) h1 h2
      simp [runFrom, hcs0, hex0, hcw0, hrec, List.range']

theorem runFrom_done (env : WorkerEnv) :
    ∀ (cmds : List (String × List String)) (k : Nat),
      (∀ j, j < cmds.length → env.cancelAtStart (k + j) = false ∧
        env.cancelAfterWait (k + j) = false ∧
        ∃ t, env.exec (k + j) = ExecResult.exited 0 t) →
      runFrom env k cmds =
        ⟨true, "所有任务完成！", List.range' k cmds.length, []⟩ := by
  intro cmds
  induction cmds with
  | nil => intro k _; rfl
  | cons cmd rest ih =>
    intro k hclean
    obtain ⟨hcs0, hcw0, t, hex0⟩ := by simpa using hclean 0 (by simp)
    have h1 : ∀ j, j < rest.length → env.cancelAtStart (k + 1 + j) = false ∧
        env.cancelAfterWait (k + 1 + j) = false ∧
        ∃ u, env.exec (k + 1 + j) = ExecResult.exited 0 u := by
      intro j hj
      have := hclean (j + 1) (by simp; omega)
      rwa [show k + (j + 1) = k + 1 + j by omega] at this
    have hrec := ih (k + 1) h1
    simp [runFrom, hcs0, hex0, hcw0, hrec, List.range']

theorem runFrom_success_clean (env : WorkerEnv) :
    ∀ (cmds : List (String × List String)) (k : Nat),
      (runFrom env k cmds).success = true →
      ∀ j, j < cmds.length → env.cancelAtStart (k + j) = false ∧
        env.cancelAfterWait (k + j) = false ∧
        ∃ t, env.exec (k + j) = ExecResult.exited 0 t := by
  intro cmds
  induction cmds with
  | nil => intro k _ j hj; simp at hj
  | cons cmd rest ih =>
    intro k h j hj
    by_cases hcs : env.cancelAtStart k = true
    · exfalso; simp [runFrom, hcs] at h
    · have hcs' : env.cancelAtStart k = false := by
        simpa using hcs
      cases hex : env.exec k with
      | timedOut => exfalso; simp [runFrom, hcs', hex] at h
      | raised m => exfalso; simp [runFrom, hcs', hex] at h
      | exited c t =>
        by_cases hcw : env.cancelAfterWait k = true
        · exfalso; simp [runFrom, hcs', hex, hcw] at h
        · have hcw' : env.cancelAfterWait k = false := by simpa using hcw
          by_cases hc : c = 0
          · subst hc
            have h' : (runFrom env (k + 1) rest).success = true := by
              simpa [runFrom, hcs', hex, hcw'] using h
            cases j with
            | zero =>
              exact ⟨by simpa using hcs', by simpa using hcw', t, by simpa using hex⟩
            | succ j' =>
              have := ih (k + 1) h' j' (by simpa using hj)
              rwa [show k + 1 + j' = k + (j' + 1) by omega] at this
          · exfalso; simp [runFrom, hcs', hex, hcw', hc] at h

/-- Claim C2: a non-zero exit at position k (after a clean prefix)
yields Failed carrying the stripped stderr text, with exactly commands
0..k spawned; a cancellation pending before command k starts yields
Cancelled with exactly commands 0..k-1 spawned — in particular a
cancellation pending at the start yields Cancelled with no command
spawned; a fully clean run yields Completed; and Completed occurs only
when every command ran cancel-free with exit status zero. -/
theorem C2_worker_run (env : WorkerEnv) (cmds : List (String × List String)) :
    (∀ k c s, k < cmds.length → cleanBefore env k →
      env.cancelAtStart k = false → env.cancelAfterWait k = false →
      env.exec k = ExecResult.exited c s → c ≠ 0 →
      FFmpegWorker.run env cmds =
        ⟨false, "命令失败:\n" ++ pyStrip s, List.range (k + 1), []⟩) ∧
    (∀ k, k < cmds.length → cleanBefore env k → env.cancelAtStart k = true →
      FFmpegWorker.run env cmds = ⟨false, "已取消", List.range k, []⟩) ∧
    (cmds ≠ [] → env.cancelAtStart 0 = true →
      FFmpegWorker.run env cmds = ⟨false, "已取消", [], []⟩) ∧
    (cleanBefore env cmds.length →
      FFmpegWorker.run env cmds =
        ⟨true, "所有任务完成！", List.range cmds.length, []⟩) ∧
    ((FFmpegWorker.run env cmds).success = true → cleanBefore env cmds.length) := by
  refine ⟨?_, ?_, ?_, ?_, ?_⟩
  · intro k c s hk hclean hcs hcw hex hc
    rw [FFmpegWorker.run, List.range_eq_range']
    exact runFrom_fail env cmds 0 k c s hk
      (fun j hj => by simpa using hclean j hj)
      (by simpa using hcs) (by simpa using hcw) (by simpa using hex) hc
  · intro k hk hclean hcs
    rw [FFmpegWorker.run, List.range_eq_range']
    exact runFrom_cancel env cmds 0 k hk
      (fun j hj => by simpa using hclean j hj) (by simpa using hcs)
  · intro hne hcs
    have hk : 0 < cmds.length := List.length_pos.mpr hne
    have := runFrom_cancel env cmds 0 0 hk (fun j hj => by omega)
      (by simpa using hcs)
    rw [FFmpegWorker.run]
    simpa [List.range'] using this
  · intro hclean
    rw [FFmpegWorker.run, List.range_eq_range']
    exact runFrom_done env cmds 0 (fun j hj => by simpa using hclean j hj)
  · intro h j hj
    have := runFrom_success_clean env cmds 0 h j hj
    simpa using this

/-- Witness for C2: the second of three commands exits with status 1 and
stderr `boom`; the run fails with that text and the third command is
never spawned. -/
theorem C2_witness :
    FFmpegWorker.run
      ⟨fun k => if k = 0 then ExecResult.exited 0 ""
        else ExecResult.exited 1 "boom",
       fun _ => false, fun _ => false⟩
      [("a", ["x"]), ("b", ["x"]), ("c", ["x"])] =
      ⟨false, "命令失败:\nboom", [0, 1], []⟩ := by
  have h := (C2_worker_run
      ⟨fun k => if k = 0 then ExecResult.exited 0 ""
        else ExecResult.exited 1 "boom",
       fun _ => false, fun _ => false⟩
      [("a", ["x"]), ("b", ["x"]), ("c", ["x"])]).1 1 1 "boom" (by decide)
    (by
      intro j hj
      have hj0 : j = 0 := by omega
      subst hj0
      exact ⟨rfl, rfl, "", rfl⟩)
    rfl rfl rfl (by omega)
  rw [h]
  rfl

/-- Claim C6, observed at the failing input: a command list whose first
command exceeds the 300-second ceiling.  The run does transition to
Failed with the timeout-specific message and the second command is never
spawned, but no process is ever terminated (`terminated = []`): the
`TimeoutExpired` handler in the source returns without killing the
still-running child, contradicting the claim's termination requirement. -/
theorem C6_timeout_no_terminate :
    FFmpegWorker.run
      ⟨fun _ => ExecResult.timedOut, fun _ => false, fun _ => false⟩
      [("a", ["ffmpeg"]), ("b", ["ffmpeg"])] =
      ⟨false, "处理超时，请检查文件", [0], []⟩ := by
  rfl

/-! ## Claim C9: probe error handling -/

/-- Claim C9: the probe returns the empty descriptor whenever the
external prober exits non-zero, and a descriptor whose only field is an
error message whenever the invocation times out, raises, or produces
output on which parsing or descriptor construction raises.  Totality of
`get_audio_info` embodies "no exception propagates". -/
theorem C9_get_audio_info :
    (∀ (rc : ℤ) (out : Option JValue), rc ≠ 0 →
      get_audio_info (ProbeRun.completed rc out) = []) ∧
    (get_audio_info ProbeRun.timedOut).map Prod.fst = ["error"] ∧
    (∀ msg, (get_audio_info (ProbeRun.raised msg)).map Prod.fst = ["error"]) ∧
    (get_audio_info (ProbeRun.completed 0 none)).map Prod.fst = ["error"] ∧
    (∀ data e, buildAudioInfo data = Except.error e →
      (get_audio_info (ProbeRun.completed 0 (some data))).map Prod.fst
        = ["error"]) := by
  refine ⟨?_, rfl, fun _ => rfl, rfl, ?_⟩
  · intro rc out h
    simp [get_audio_info, h]
  · intro data e h
    simp [get_audio_info, h]

/-- Witness for C9: a non-zero exit gives the empty descriptor, and a
top-level JSON string (on which `.get` raises) gives an error-only
descriptor. -/
theorem C9_witness :
    get_audio_info (ProbeRun.completed 1 none) = [] ∧
    (get_audio_info (ProbeRun.completed 0 (some (JValue.str "x")))).map Prod.fst
      = ["error"] :=
  ⟨C9_get_audio_info.1 1 none (by decide),
   C9_get_audio_info.2.2.2.2 (JValue.str "x")
     "AttributeError: object has no attribute get" rfl⟩

/-! ## Claim C10: the channel-count default -/

/-- Claim C10: when the descriptor has no `channels` field (no audio
stream, or an empty/error descriptor) the loader defaults the count to 2
and takes the stereo path; the mono path is taken exactly when the
descriptor holds a value that Python-equals 1. -/
theorem C10_channel_default (info : List (String × JValue)) :
    (info.lookup "channels" = none →
      loadedChannels info = JValue.num 2 ∧ loadedIsMono info = false) ∧
    (loadedIsMono info = true ↔
      ∃ v, info.lookup "channels" = some v ∧ pyEqOne v = true) := by
  constructor
  · intro h
    unfold loadedIsMono loadedChannels
    rw [h]
    exact ⟨rfl, by with_unfolding_all rfl⟩
  · unfold loadedIsMono loadedChannels
    cases hl : info.lookup "channels" with
    | none =>
      simp only [Option.getD_none]
      constructor
      · intro h
        exact absurd h (by with_unfolding_all decide)
      · rintro ⟨v, hv, -⟩
        exact absurd hv (by simp)
    | some v =>
      simp only [Option.getD_some]
      constructor
      · intro h
        exact ⟨v, rfl, h⟩
      · rintro ⟨v2, hv2, hp⟩
        rw [Option.some.injEq] at hv2
        rw [hv2]
        exact hp

/-- Witness for C10: the empty descriptor routes to the stereo path. -/
theorem C10_witness :
    loadedChannels ([] : List (String × JValue)) = JValue.num 2 ∧
    loadedIsMono ([] : List (String × JValue)) = false :=
  (C10_channel_default []).1 rfl

